import Mathlib

/-!
Shallow embedding of `reana_workflow_engine_yadage/cli.py`, the run-lifecycle
supervisor of the REANA yadage workflow engine, together with proofs of the
specification claims about it.

The embedding models:
 * Python `dict` values (as used for init data) as association lists with
   `dict.update` overwrite semantics (`dictSet`, `dictUpdate`);
 * `os.path.join` on the two-argument form used by the source (`osPathJoin`);
 * the click callback `load_yadage_operational_options` (path resolution);
 * the body of `run_yadage_workflow` as a function from an environment that
   fixes the outcome of each external effect (file existence, spec loading,
   YAML parsing, connectivity check, engine invocation, publish delivery) to
   a trace of observable events plus an outcome (normal return, or an
   exception escaping the function).
-/

namespace ReanaYadage

/-! ## Python dict model (association lists, insertion ordered) -/

/-- Set key `k` to `v` in a Python-style dict: overwrite in place if the key
is present, append otherwise. Mirrors a single-key `dict` assignment. -/
def dictSet {α : Type u} (d : List (String × α)) (k : String) (v : α) :
    List (String × α) :=
  if d.any (fun p => p.1 = k) then
    d.map (fun p => if p.1 = k then (k, v) else p)
  else
    d ++ [(k, v)]

/-- Python `d.update(other)`: fold every entry of `other` into `d`, later
entries overwriting earlier ones for the same key. -/
def dictUpdate {α : Type u} (d other : List (String × α)) : List (String × α) :=
  other.foldl (fun acc p => dictSet acc p.1 p.2) d

/-- Python `d.get(k)` / `d[k]`: first entry with key `k` (keys of dicts built
by `dictSet` from `[]` are unique, so "first" is "the" entry). -/
def dictGet? {α : Type u} (d : List (String × α)) (k : String) : Option α :=
  (d.find? (fun p => p.1 = k)).map Prod.snd

/-- The value the *last* entry of a raw entry list gives to key `k`; this is
what folding the list into a dict leaves behind for `k`. -/
def dictGetLast? {α : Type u} (d : List (String × α)) (k : String) : Option α :=
  (d.reverse.find? (fun p => p.1 = k)).map Prod.snd

/-- The init-data merge of `run_yadage_workflow` (cli.py lines 134-137) with
the YAML file contents already parsed: start from the empty dict, overlay each
file's mapping in list order, then overlay the workflow parameters last. -/
def mergeInitData {α : Type u} (fileData : List (List (String × α)))
    (params : List (String × α)) : List (String × α) :=
  dictUpdate (fileData.foldl (fun acc d => dictUpdate acc d) []) params

/-- The last value list order assigns to `k` across a list of file mappings:
search the files from last to first, inside each file from last entry to
first. This is the spec-side "later file wins" description of the merge. -/
def filesGetLast? {α : Type u} (fileData : List (List (String × α)))
    (k : String) : Option α :=
  fileData.foldl (fun acc d => (dictGetLast? d k).or acc) none

/-! ## `os.path.join` and the operational-options resolver -/

/-- Python `s.startswith(p)`: `p` is a prefix of `s` (stated on the
character lists so proofs can reason about it directly). -/
def strStartsWith (s p : String) : Bool :=
  p.data.isPrefixOf s.data

/-- Python `s.endswith(p)`: `p` is a suffix of `s`. -/
def strEndsWith (s p : String) : Bool :=
  p.data.isSuffixOf s.data

/-- `os.path.join a b` for the cases exercised by the source: an absolute
second component replaces the first, otherwise the components are joined with
exactly one separator. -/
def osPathJoin (a b : String) : String :=
  if strStartsWith b "/" then b
  else if a = "" then b
  else if strEndsWith a "/" then a ++ b
  else a ++ "/" ++ b

/-- cli.py line 48/98: `"{0}/{1}".format(SHARED_VOLUME_PATH, workflow_workspace)`. -/
def workspacePath (sharedVolumePath workflowWorkspaceName : String) : String :=
  sharedVolumePath ++ "/" ++ workflowWorkspaceName

/-- The recognized operational-option keys. Each field is `none` when the key
is absent from the JSON mapping. `accept_metadir` keeps the stored value so
that key presence and stored value can be distinguished, as the source does. -/
structure OperationalOptions where
  toplevel : Option String
  initdir : Option String
  initfiles : Option (List String)
  accept_metadir : Option Bool
  deriving DecidableEq, Repr

/-- The click callback `load_yadage_operational_options` (cli.py lines 44-63),
after JSON decoding: joins `toplevel` (unless it is a `github:` reference),
`initdir` (default `""`) and every `initfiles` entry under the workspace path,
and writes the results back into the mapping. -/
def load_yadage_operational_options (sharedVolumePath workflowWorkspaceName : String)
    (opts : OperationalOptions) : OperationalOptions :=
  let ws := workspacePath sharedVolumePath workflowWorkspaceName
  let t := opts.toplevel.getD ""
  { toplevel := some (if strStartsWith t "github:" then t else osPathJoin ws t)
    initdir := some (osPathJoin ws (opts.initdir.getD ""))
    initfiles := some ((opts.initfiles.getD []).map (fun f => osPathJoin ws f))
    accept_metadir := opts.accept_metadir }

/-! ## The run supervisor `run_yadage_workflow` -/

/-- Observable events of one supervisor run, in emission order. -/
inductive Event where
  /-- A `publisher.publish_workflow_status(uuid, state, logs)` call was made. -/
  | publish (uuid : String) (state : Nat) (logs : Option String)
  /-- Delivery of a publish call failed and was logged locally instead of
  raised (behaviour of the publisher, modelled from the spec). -/
  | publishFailedLog (state : Nat)
  /-- A `log.error(msg)` record emitted by the supervisor itself. -/
  | logError (msg : String)
  /-- `yadageschemas.load` was invoked (cli.py line 125). -/
  | specLoaderInvoked
  /-- `steering_ctx(...)` was invoked with the given `accept_metadir`
  keyword argument (cli.py lines 141-151). -/
  | engineInvoked (acceptMetadir : Bool)
  deriving DecidableEq, Repr

/-- How `run_yadage_workflow` exits: a normal return, or an exception
escaping the function. -/
inductive Outcome where
  | ok
  | raised (msg : String)
  deriving DecidableEq, Repr

/-- One run's environment: the message of every fallible external step
(`Except.error` when that step would raise), the parsed contents of each
init file, and whether each publish delivery succeeds. -/
structure RunEnv where
  workflowUuid : String
  workflowFile : String
  workflowParameters : List (String × Int)
  operationalOptions : OperationalOptions
  /-- `REANAWorkflowStatusPublisher()` (cli.py line 106): `error` when the
  constructor raises. -/
  publisherCtor : Except String Unit
  /-- `os.path.exists(workflow_file_abs_path)` (cli.py line 108). -/
  specFileExists : Bool
  /-- `yadageschemas.load(...)` (cli.py line 125): `error` when it raises. -/
  specLoadResult : Except String Unit
  /-- `yaml.safe_load(open(initfile))` (cli.py line 136): parsed mapping, or
  `error` when the file is missing or unparsable. -/
  fileContents : String → Except String (List (String × Int))
  /-- `check_connection_to_job_controller()` (cli.py line 139). -/
  connectivity : Except String Unit
  /-- Entering `steering_ctx` (cli.py line 141): `error` when it raises. -/
  steeringEnter : Except String Unit
  /-- Exiting the `with` block, which runs the workflow: `error` when the
  engine raises. -/
  engineRun : Except String Unit
  /-- Whether delivery of the publish call for a given numeric state
  succeeds on its single attempt. -/
  deliveryOk : Nat → Bool

/-- cli.py line 109: the message of the exception raised when the workflow
file does not exist. -/
def specMissingMessage (workflowFile : String) : String :=
  "Workflow file " ++ workflowFile ++ " does not exist"

/-- cli.py lines 175-178: the local error logged when a run failed but no
publisher is available to report it. -/
def couldNotPublishMessage (workflowUuid : String) : String :=
  "Workflow " ++ workflowUuid ++ " failed but status could not be published."

/-- Modelled from the spec: `REANAWorkflowStatusPublisher.publish_workflow_status`
(defined in this repository's `utils.py`, which is not under `src/`). The
spec (§4.4) states: one delivery attempt per call; a delivery failure is
caught and logged locally and never propagated to the caller. Hence the call
always returns, emitting the publish event and, on failed delivery, a local
log record. -/
def publishStatus (env : RunEnv) (state : Nat) (logs : Option String) :
    List Event :=
  Event.publish env.workflowUuid state logs ::
    (if env.deliveryOk state then [] else [Event.publishFailedLog state])

/-- cli.py lines 135-136: `for initfile in operational_options["initfiles"]:
initdata.update(**yaml.safe_load(open(initfile)))`, threading the
accumulator; the first file that fails to open or parse raises. -/
def loadInitFiles (fileContents : String → Except String (List (String × Int))) :
    List String → List (String × Int) → Except String (List (String × Int))
  | [], acc => .ok acc
  | f :: rest, acc =>
    match fileContents f with
    | .error e => .error e
    | .ok d => loadInitFiles fileContents rest (dictUpdate acc d)

/-- The guarded region of `run_yadage_workflow` (cli.py lines 107-167, the
`try` body): existence check, spec load, init-data merge, connectivity
check, engine invocation, `RUNNING` publish inside the `with` block and
`FINISHED` publish after it. Returns the events emitted so far and either
`ok` or the message of the exception that aborted the region. -/
def tryBody (env : RunEnv) : List Event × Except String Unit :=
  if env.specFileExists then
    match env.specLoadResult with
    | .error e => ([.specLoaderInvoked], .error e)
    | .ok () =>
      match loadInitFiles env.fileContents
          (env.operationalOptions.initfiles.getD []) [] with
      | .error e => ([.specLoaderInvoked], .error e)
      | .ok filesData =>
        let _initdata := dictUpdate filesData env.workflowParameters
        match env.connectivity with
        | .error e => ([.specLoaderInvoked], .error e)
        | .ok () =>
          let invoked :=
            Event.engineInvoked env.operationalOptions.accept_metadir.isSome
          match env.steeringEnter with
          | .error e => ([.specLoaderInvoked, invoked], .error e)
          | .ok () =>
            let running := publishStatus env 1 none
            match env.engineRun with
            | .error e => ([.specLoaderInvoked, invoked] ++ running, .error e)
            | .ok () =>
              ([.specLoaderInvoked, invoked] ++ running ++
                publishStatus env 2 none, .ok ())
  else
    ([], .error (specMissingMessage env.workflowFile))

/-- The `except` handler's reporting step (cli.py lines 170-178): publish
`FAILED` with the error message when a publisher object is available
(truthy), otherwise log locally that the status could not be published. -/
def exceptReport (env : RunEnv) (publisher : Option Unit) (e : String) :
    List Event :=
  match publisher with
  | some () => publishStatus env 3 (some ("workflow failed: " ++ e))
  | none => [Event.logError (couldNotPublishMessage env.workflowUuid)]

/-- `run_yadage_workflow` (cli.py lines 89-178) from the publisher
construction on: construction happens before the `try`, so its failure
escapes the function; otherwise the guarded region runs and any exception it
raises is caught, logged and reported as `FAILED`, after which the function
returns normally. -/
def run_yadage_workflow (env : RunEnv) : List Event × Outcome :=
  match env.publisherCtor with
  | .error e => ([], .raised e)
  | .ok () =>
    let publisher : Option Unit := some ()
    match tryBody env with
    | (evs, .ok ()) => (evs, .ok)
    | (evs, .error e) =>
      (evs ++ Event.logError ("Workflow failed: " ++ e) ::
        exceptReport env publisher e, .ok)

/-! ## Trace observations -/

/-- The sequence of numeric states of the publish calls in a trace. -/
def statuses (evs : List Event) : List Nat :=
  evs.filterMap (fun e =>
    match e with
    | .publish _ s _ => some s
    | _ => none)

/-- All publish calls `(uuid, state, logs)` in a trace. -/
def publishes (evs : List Event) : List (String × Nat × Option String) :=
  evs.filterMap (fun e =>
    match e with
    | .publish u s l => some (u, s, l)
    | _ => none)

/-- The terminal publish calls (state `FINISHED = 2` or `FAILED = 3`) in a
trace, with their log payloads. -/
def terminalPublishes (evs : List Event) : List (Nat × Option String) :=
  evs.filterMap (fun e =>
    match e with
    | .publish _ s l => if s = 2 ∨ s = 3 then some (s, l) else none
    | _ => none)

/-- The `accept_metadir` arguments of the engine invocations in a trace. -/
def engineFlags (evs : List Event) : List Bool :=
  evs.filterMap (fun e =>
    match e with
    | .engineInvoked b => some b
    | _ => none)

/-- A trace with every publisher-internal delivery-failure log record
removed: what the supervisor itself emitted. -/
def stripFailLogs (evs : List Event) : List Event :=
  evs.filter (fun e =>
    match e with
    | .publishFailedLog _ => false
    | _ => true)

/-- The given environment with its publish-delivery behaviour replaced. -/
def withDelivery (env : RunEnv) (d : Nat → Bool) : RunEnv :=
  { env with deliveryOk := d }

/-! ## Concrete environments used to instantiate the theorems -/

/-- A run in which every external step succeeds. -/
def envAllOk : RunEnv where
  workflowUuid := "uuid-1"
  workflowFile := "workflow.yaml"
  workflowParameters := [("z", 5)]
  operationalOptions :=
    { toplevel := some "/reana/ws/spec"
      initdir := some "/reana/ws"
      initfiles := some ["/reana/ws/a.yaml"]
      accept_metadir := none }
  publisherCtor := .ok ()
  specFileExists := true
  specLoadResult := .ok ()
  fileContents := fun _ => .ok [("x", 1)]
  connectivity := .ok ()
  steeringEnter := .ok ()
  engineRun := .ok ()
  deliveryOk := fun _ => true

/-- A run whose workflow spec file is absent. -/
def envSpecMissing : RunEnv :=
  { envAllOk with specFileExists := false }

/-- A run in which the engine raises after `RUNNING` was published. -/
def envEngineFail : RunEnv :=
  { envAllOk with engineRun := .error "step 3 crashed" }

/-- A run in which the publisher constructor raises (used against C1). -/
def envCtorFailA : RunEnv :=
  { envAllOk with publisherCtor := .error "publisher connection refused" }

/-- A run in which the publisher constructor raises (used against C6). -/
def envCtorFailB : RunEnv :=
  { envAllOk with publisherCtor := .error "publisher down" }

/-- A run whose options contain the key `accept_metadir` with value
`false`. -/
def envAcceptMetadirFalse : RunEnv :=
  { envAllOk with
    operationalOptions :=
      { envAllOk.operationalOptions with accept_metadir := some false } }

/-- Concrete raw operational options with relative paths and no `initdir`. -/
def optsRelative : OperationalOptions where
  toplevel := some "spec"
  initdir := none
  initfiles := some ["a.yaml", "sub/b.yaml"]
  accept_metadir := none

/-- Concrete raw operational options with relative paths everywhere. -/
def optsRelativeFull : OperationalOptions where
  toplevel := some "spec"
  initdir := some "inputs"
  initfiles := some ["a.yaml"]
  accept_metadir := some true

/-! ## Lemmas about the dict model -/

theorem find?_map_overwrite_self {α : Type u} (k : String) (v : α)
    (d : List (String × α)) :
    (d.map (fun p => if p.1 = k then (k, v) else p)).find?
        (fun p => p.1 = k) =
      if d.any (fun p => p.1 = k) then some (k, v) else none := by
  induction d with
  | nil => simp
  | cons p rest ih =>
    by_cases hp : p.1 = k
    · have hA : (fun q : String × α => decide (q.1 = k)) (k, v) = true := by
        simp
      simp only [List.map_cons, if_pos hp]
      rw [@List.find?_cons_of_pos _ (fun q => decide (q.1 = k)) (k, v) _ hA]
      simp [hp]
    · have hB : ¬ ((fun q : String × α => decide (q.1 = k)) p = true) := by
        simp [hp]
      simp only [List.map_cons, if_neg hp]
      rw [@List.find?_cons_of_neg _ (fun q => decide (q.1 = k)) p _ hB, ih]
      have hd : decide (p.1 = k) = false := by simp [hp]
      rw [List.any_cons, hd, Bool.false_or]

theorem find?_map_overwrite_other {α : Type u} (k k' : String) (v : α)
    (hkk : k' ≠ k) (d : List (String × α)) :
    (d.map (fun p => if p.1 = k then (k, v) else p)).find?
        (fun p => p.1 = k') =
      d.find? (fun p => p.1 = k') := by
  induction d with
  | nil => simp
  | cons p rest ih =>
    by_cases hp : p.1 = k
    · have hA : ¬ ((fun q : String × α => decide (q.1 = k')) (k, v) = true) := by
        simp only [decide_eq_true_eq]
        exact fun h => hkk (Eq.symm h)
      have hB : ¬ ((fun q : String × α => decide (q.1 = k')) p = true) := by
        simp only [decide_eq_true_eq]
        rw [hp]
        exact fun h => hkk (Eq.symm h)
      simp only [List.map_cons, if_pos hp]
      rw [@List.find?_cons_of_neg _ (fun q => decide (q.1 = k')) (k, v) _ hA,
        @List.find?_cons_of_neg _ (fun q => decide (q.1 = k')) p _ hB, ih]
    · by_cases hq : p.1 = k'
      · have hA : (fun q : String × α => decide (q.1 = k')) p = true := by
          simp [hq]
        simp only [List.map_cons, if_neg hp]
        rw [@List.find?_cons_of_pos _ (fun q => decide (q.1 = k')) p _ hA,
          @List.find?_cons_of_pos _ (fun q => decide (q.1 = k')) p _ hA]
      · have hB : ¬ ((fun q : String × α => decide (q.1 = k')) p = true) := by
          simp [hq]
        simp only [List.map_cons, if_neg hp]
        rw [@List.find?_cons_of_neg _ (fun q => decide (q.1 = k')) p _ hB,
          @List.find?_cons_of_neg _ (fun q => decide (q.1 = k')) p _ hB, ih]

theorem dictGet?_dictSet {α : Type u} (d : List (String × α)) (k k' : String)
    (v : α) :
    dictGet? (dictSet d k v) k' = if k' = k then some v else dictGet? d k' := by
  unfold dictSet dictGet?
  by_cases hany : d.any (fun p => p.1 = k)
  · rw [if_pos hany]
    by_cases hk : k' = k
    · subst hk
      rw [find?_map_overwrite_self, if_pos hany, if_pos rfl]
      rfl
    · rw [find?_map_overwrite_other k k' v hk, if_neg hk]
  · rw [if_neg hany, List.find?_append]
    by_cases hk : k' = k
    · subst hk
      have hnone : d.find? (fun p => p.1 = k') = none := by
        rw [List.find?_eq_none]
        intro p hp
        simp only [decide_eq_true_eq]
        intro hc
        exact hany (List.any_eq_true.mpr ⟨p, hp, by simp [hc]⟩)
      simp [hnone]
    · have hne : ¬ (k = k') := fun h => hk (Eq.symm h)
      have hlast : List.find? (fun p => p.1 = k') [(k, v)] = none := by
        simp [hne]
      rw [hlast, if_neg hk]
      cases d.find? (fun p => p.1 = k') <;> rfl

theorem dictGetLast?_cons {α : Type u} (p : String × α)
    (rest : List (String × α)) (k : String) :
    dictGetLast? (p :: rest) k =
      (dictGetLast? rest k).or (if p.1 = k then some p.2 else none) := by
  unfold dictGetLast?
  rw [List.reverse_cons, List.find?_append]
  cases hr : rest.reverse.find? (fun q => q.1 = k) with
  | none =>
    by_cases hp : p.1 = k <;> simp [hp]
  | some q => simp

theorem dictGet?_dictUpdate {α : Type u} (d o : List (String × α))
    (k : String) :
    dictGet? (dictUpdate d o) k = (dictGetLast? o k).or (dictGet? d k) := by
  induction o generalizing d with
  | nil => simp [dictUpdate, dictGetLast?]
  | cons p rest ih =>
    have h1 : dictUpdate d (p :: rest) = dictUpdate (dictSet d p.1 p.2) rest :=
      rfl
    rw [h1, ih, dictGet?_dictSet, dictGetLast?_cons, Option.or_assoc]
    congr 1
    by_cases hk : k = p.1
    · simp [hk]
    · have hk2 : ¬ (p.1 = k) := fun h => hk (Eq.symm h)
      simp [hk, hk2]

theorem foldl_or_accumulator {α : Type u} (f : List (String × α) → Option α)
    (fds : List (List (String × α))) (a : Option α) :
    fds.foldl (fun acc d => (f d).or acc) a =
      (fds.foldl (fun acc d => (f d).or acc) none).or a := by
  induction fds generalizing a with
  | nil => simp
  | cons d fds ih =>
    show fds.foldl _ ((f d).or a) = (fds.foldl _ ((f d).or none)).or a
    rw [ih ((f d).or a), ih ((f d).or none), Option.or_none, Option.or_assoc]

theorem dictGet?_foldl_dictUpdate {α : Type u}
    (fds : List (List (String × α))) (d0 : List (String × α)) (k : String) :
    dictGet? (fds.foldl (fun acc d => dictUpdate acc d) d0) k =
      (filesGetLast? fds k).or (dictGet? d0 k) := by
  induction fds generalizing d0 with
  | nil => simp [filesGetLast?]
  | cons d fds ih =>
    show dictGet? (fds.foldl _ (dictUpdate d0 d)) k = _
    rw [ih (dictUpdate d0 d), dictGet?_dictUpdate]
    show _ = (fds.foldl (fun acc d => (dictGetLast? d k).or acc)
      ((dictGetLast? d k).or none)).or (dictGet? d0 k)
    rw [foldl_or_accumulator (fun d => dictGetLast? d k) fds
      ((dictGetLast? d k).or none), Option.or_none, Option.or_assoc]
    rfl

/-! ## Lemmas about the run supervisor -/

theorem statuses_nil : statuses [] = [] := rfl

theorem statuses_publishStatus (env : RunEnv) (s : Nat) (l : Option String) :
    statuses (publishStatus env s l) = [s] := by
  unfold publishStatus statuses
  cases env.deliveryOk s <;> simp

theorem publishes_publishStatus (env : RunEnv) (s : Nat) (l : Option String) :
    publishes (publishStatus env s l) = [(env.workflowUuid, s, l)] := by
  unfold publishStatus publishes
  cases env.deliveryOk s <;> simp

theorem terminalPublishes_publishStatus (env : RunEnv) (s : Nat)
    (l : Option String) :
    terminalPublishes (publishStatus env s l) =
      if s = 2 ∨ s = 3 then [(s, l)] else [] := by
  unfold publishStatus terminalPublishes
  cases env.deliveryOk s <;> by_cases hs : s = 2 ∨ s = 3 <;> simp [hs]

theorem engineFlags_publishStatus (env : RunEnv) (s : Nat) (l : Option String) :
    engineFlags (publishStatus env s l) = [] := by
  unfold publishStatus engineFlags
  cases env.deliveryOk s <;> simp

theorem stripFailLogs_publishStatus (env : RunEnv) (s : Nat)
    (l : Option String) :
    stripFailLogs (publishStatus env s l) =
      [Event.publish env.workflowUuid s l] := by
  unfold publishStatus stripFailLogs
  cases env.deliveryOk s <;> simp

theorem statuses_append (a b : List Event) :
    statuses (a ++ b) = statuses a ++ statuses b := by
  simp [statuses]

theorem publishes_append (a b : List Event) :
    publishes (a ++ b) = publishes a ++ publishes b := by
  simp [publishes]

theorem terminalPublishes_append (a b : List Event) :
    terminalPublishes (a ++ b) =
      terminalPublishes a ++ terminalPublishes b := by
  simp [terminalPublishes]

theorem engineFlags_append (a b : List Event) :
    engineFlags (a ++ b) = engineFlags a ++ engineFlags b := by
  simp [engineFlags]

theorem stripFailLogs_append (a b : List Event) :
    stripFailLogs (a ++ b) = stripFailLogs a ++ stripFailLogs b := by
  simp [stripFailLogs]

theorem tryBody_spec_missing (env : RunEnv) (h : env.specFileExists = false) :
    tryBody env = ([], .error (specMissingMessage env.workflowFile)) := by
  simp [tryBody, h]

theorem tryBody_spec_load_error (env : RunEnv) (e : String)
    (h1 : env.specFileExists = true) (h2 : env.specLoadResult = .error e) :
    tryBody env = ([.specLoaderInvoked], .error e) := by
  simp [tryBody, h1, h2]

theorem tryBody_initfiles_error (env : RunEnv) (e : String)
    (h1 : env.specFileExists = true) (h2 : env.specLoadResult = .ok ())
    (h3 : loadInitFiles env.fileContents
      (env.operationalOptions.initfiles.getD []) [] = .error e) :
    tryBody env = ([.specLoaderInvoked], .error e) := by
  simp [tryBody, h1, h2, h3]

theorem tryBody_connectivity_error (env : RunEnv) (e : String)
    (fd : List (String × Int)) (h1 : env.specFileExists = true)
    (h2 : env.specLoadResult = .ok ())
    (h3 : loadInitFiles env.fileContents
      (env.operationalOptions.initfiles.getD []) [] = .ok fd)
    (h4 : env.connectivity = .error e) :
    tryBody env = ([.specLoaderInvoked], .error e) := by
  simp [tryBody, h1, h2, h3, h4]

theorem tryBody_enter_error (env : RunEnv) (e : String)
    (fd : List (String × Int)) (h1 : env.specFileExists = true)
    (h2 : env.specLoadResult = .ok ())
    (h3 : loadInitFiles env.fileContents
      (env.operationalOptions.initfiles.getD []) [] = .ok fd)
    (h4 : env.connectivity = .ok ())
    (h5 : env.steeringEnter = .error e) :
    tryBody env =
      ([.specLoaderInvoked,
        .engineInvoked env.operationalOptions.accept_metadir.isSome],
       .error e) := by
  simp [tryBody, h1, h2, h3, h4, h5]

theorem tryBody_engine_error (env : RunEnv) (e : String)
    (fd : List (String × Int)) (h1 : env.specFileExists = true)
    (h2 : env.specLoadResult = .ok ())
    (h3 : loadInitFiles env.fileContents
      (env.operationalOptions.initfiles.getD []) [] = .ok fd)
    (h4 : env.connectivity = .ok ())
    (h5 : env.steeringEnter = .ok ())
    (h6 : env.engineRun = .error e) :
    tryBody env =
      ([.specLoaderInvoked,
        .engineInvoked env.operationalOptions.accept_metadir.isSome] ++
        publishStatus env 1 none,
       .error e) := by
  simp [tryBody, h1, h2, h3, h4, h5, h6]

theorem tryBody_all_ok (env : RunEnv)
    (fd : List (String × Int)) (h1 : env.specFileExists = true)
    (h2 : env.specLoadResult = .ok ())
    (h3 : loadInitFiles env.fileContents
      (env.operationalOptions.initfiles.getD []) [] = .ok fd)
    (h4 : env.connectivity = .ok ())
    (h5 : env.steeringEnter = .ok ())
    (h6 : env.engineRun = .ok ()) :
    tryBody env =
      ([.specLoaderInvoked,
        .engineInvoked env.operationalOptions.accept_metadir.isSome] ++
        publishStatus env 1 none ++ publishStatus env 2 none,
       .ok ()) := by
  simp [tryBody, h1, h2, h3, h4, h5, h6]

theorem run_of_ctor_error (env : RunEnv) (e : String)
    (h : env.publisherCtor = .error e) :
    run_yadage_workflow env = ([], .raised e) := by
  simp [run_yadage_workflow, h]

theorem run_of_tryBody_error (env : RunEnv) (e : String) (evs : List Event)
    (h0 : env.publisherCtor = .ok ()) (htb : tryBody env = (evs, .error e)) :
    run_yadage_workflow env =
      (evs ++ Event.logError ("Workflow failed: " ++ e) ::
        publishStatus env 3 (some ("workflow failed: " ++ e)), .ok) := by
  simp [run_yadage_workflow, h0, htb, exceptReport]

theorem run_of_tryBody_ok (env : RunEnv) (evs : List Event)
    (h0 : env.publisherCtor = .ok ()) (htb : tryBody env = (evs, .ok ())) :
    run_yadage_workflow env = (evs, .ok) := by
  simp [run_yadage_workflow, h0, htb]

theorem statuses_cons_logError (m : String) (evs : List Event) :
    statuses (Event.logError m :: evs) = statuses evs := by
  simp [statuses]

theorem publishes_cons_logError (m : String) (evs : List Event) :
    publishes (Event.logError m :: evs) = publishes evs := by
  simp [publishes]

theorem terminalPublishes_cons_logError (m : String) (evs : List Event) :
    terminalPublishes (Event.logError m :: evs) = terminalPublishes evs := by
  simp [terminalPublishes]

theorem engineFlags_cons_logError (m : String) (evs : List Event) :
    engineFlags (Event.logError m :: evs) = engineFlags evs := by
  simp [engineFlags]

theorem stripFailLogs_cons_logError (m : String) (evs : List Event) :
    stripFailLogs (Event.logError m :: evs) =
      Event.logError m :: stripFailLogs evs := by
  simp [stripFailLogs]

theorem run_returns_normally (env : RunEnv)
    (h0 : env.publisherCtor = .ok ()) :
    (run_yadage_workflow env).2 = .ok := by
  rcases htb : tryBody env with ⟨evs, r⟩
  cases r with
  | ok u =>
    cases u
    rw [run_of_tryBody_ok env evs h0 htb]
  | error e =>
    rw [run_of_tryBody_error env e evs h0 htb]

theorem statuses_run_failure (env : RunEnv) (e : String) (evs : List Event)
    (h0 : env.publisherCtor = .ok ()) (htb : tryBody env = (evs, .error e)) :
    statuses (run_yadage_workflow env).1 = statuses evs ++ [3] := by
  rw [run_of_tryBody_error env e evs h0 htb, statuses_append,
    statuses_cons_logError, statuses_publishStatus]

theorem publishes_run_failure (env : RunEnv) (e : String) (evs : List Event)
    (h0 : env.publisherCtor = .ok ()) (htb : tryBody env = (evs, .error e)) :
    publishes (run_yadage_workflow env).1 =
      publishes evs ++
        [(env.workflowUuid, 3, some ("workflow failed: " ++ e))] := by
  rw [run_of_tryBody_error env e evs h0 htb, publishes_append,
    publishes_cons_logError, publishes_publishStatus]

theorem terminalPublishes_run_failure (env : RunEnv) (e : String)
    (evs : List Event) (h0 : env.publisherCtor = .ok ())
    (htb : tryBody env = (evs, .error e)) :
    terminalPublishes (run_yadage_workflow env).1 =
      terminalPublishes evs ++ [(3, some ("workflow failed: " ++ e))] := by
  rw [run_of_tryBody_error env e evs h0 htb, terminalPublishes_append,
    terminalPublishes_cons_logError, terminalPublishes_publishStatus]
  simp

theorem stripFailLogs_run_failure (env : RunEnv) (e : String)
    (evs : List Event) (h0 : env.publisherCtor = .ok ())
    (htb : tryBody env = (evs, .error e)) :
    stripFailLogs (run_yadage_workflow env).1 =
      stripFailLogs evs ++
        [Event.logError ("Workflow failed: " ++ e),
         Event.publish env.workflowUuid 3
           (some ("workflow failed: " ++ e))] := by
  rw [run_of_tryBody_error env e evs h0 htb, stripFailLogs_append,
    stripFailLogs_cons_logError, stripFailLogs_publishStatus]

theorem engineFlags_run_failure (env : RunEnv) (e : String)
    (evs : List Event) (h0 : env.publisherCtor = .ok ())
    (htb : tryBody env = (evs, .error e)) :
    engineFlags (run_yadage_workflow env).1 = engineFlags evs := by
  rw [run_of_tryBody_error env e evs h0 htb, engineFlags_append,
    engineFlags_cons_logError, engineFlags_publishStatus]
  simp

/-! ## Claim theorems -/

/-- C3: for every run in which the publisher is constructed and all
preparation steps (spec existence check, spec loading, init-file loading,
connectivity check, engine context entry) succeed and the engine invocation
returns normally, the sequence of status publish calls is exactly
`[RUNNING, FINISHED]`, i.e. numeric states `[1, 2]`, each published exactly
once, in that order, with no other status events. -/
theorem successful_run_status_sequence (env : RunEnv)
    (fd : List (String × Int))
    (h0 : env.publisherCtor = .ok ()) (h1 : env.specFileExists = true)
    (h2 : env.specLoadResult = .ok ())
    (h3 : loadInitFiles env.fileContents
      (env.operationalOptions.initfiles.getD []) [] = .ok fd)
    (h4 : env.connectivity = .ok ()) (h5 : env.steeringEnter = .ok ())
    (h6 : env.engineRun = .ok ()) :
    statuses (run_yadage_workflow env).1 = [1, 2] := by
  rw [run_of_tryBody_ok env _ h0 (tryBody_all_ok env fd h1 h2 h3 h4 h5 h6),
    statuses_append, statuses_append, statuses_publishStatus,
    statuses_publishStatus]
  rfl

/-- Witness for C3 at a concrete all-success environment. -/
theorem successful_run_status_sequence_witness :
    statuses (run_yadage_workflow envAllOk).1 = [1, 2] :=
  successful_run_status_sequence envAllOk (dictUpdate [] [("x", 1)])
    rfl rfl rfl rfl rfl rfl rfl

/-- C2: for every run in which the publisher is constructed and a
preparation step fails (workflow spec file missing, an init data file
missing or unparsable, or the job-controller connectivity check fails), the
status publish sequence is exactly `[FAILED]` (`[3]`) with zero `RUNNING`
events; and for every run in which the engine invocation raises after
`RUNNING` was published, the sequence is exactly `[RUNNING, FAILED]`
(`[1, 3]`). -/
theorem failure_status_sequences :
    (∀ env : RunEnv, env.publisherCtor = .ok () →
      (env.specFileExists = false ∨
        (∃ e, loadInitFiles env.fileContents
            (env.operationalOptions.initfiles.getD []) [] = .error e) ∨
        (∃ e, env.connectivity = .error e)) →
      statuses (run_yadage_workflow env).1 = [3]) ∧
    (∀ (env : RunEnv) (fd : List (String × Int)) (e : String),
      env.publisherCtor = .ok () → env.specFileExists = true →
      env.specLoadResult = .ok () →
      loadInitFiles env.fileContents
        (env.operationalOptions.initfiles.getD []) [] = .ok fd →
      env.connectivity = .ok () → env.steeringEnter = .ok () →
      env.engineRun = .error e →
      statuses (run_yadage_workflow env).1 = [1, 3]) := by
  constructor
  · intro env h0 hd
    cases hsf : env.specFileExists with
    | false =>
      rw [statuses_run_failure env _ [] h0 (tryBody_spec_missing env hsf)]
      rfl
    | true =>
      cases hsl : env.specLoadResult with
      | error e =>
        rw [statuses_run_failure env e [.specLoaderInvoked] h0
          (tryBody_spec_load_error env e hsf hsl)]
        rfl
      | ok u =>
        cases u
        cases hli : loadInitFiles env.fileContents
            (env.operationalOptions.initfiles.getD []) [] with
        | error e =>
          rw [statuses_run_failure env e [.specLoaderInvoked] h0
            (tryBody_initfiles_error env e hsf hsl hli)]
          rfl
        | ok fd =>
          rcases hd with hd | ⟨e, hd⟩ | ⟨e, hd⟩
          · rw [hsf] at hd
            simp at hd
          · rw [hli] at hd
            simp at hd
          · rw [statuses_run_failure env e [.specLoaderInvoked] h0
              (tryBody_connectivity_error env e fd hsf hsl hli hd)]
            rfl
  · intro env fd e h0 h1 h2 h3 h4 h5 h6
    rw [statuses_run_failure env e _ h0
      (tryBody_engine_error env e fd h1 h2 h3 h4 h5 h6)]
    rw [statuses_append, statuses_publishStatus]
    rfl

/-- Witness for C2: a concrete spec-missing run publishes exactly `[3]`, a
concrete engine-raising run exactly `[1, 3]`. -/
theorem failure_status_sequences_witness :
    statuses (run_yadage_workflow envSpecMissing).1 = [3] ∧
    statuses (run_yadage_workflow envEngineFail).1 = [1, 3] :=
  ⟨failure_status_sequences.1 envSpecMissing rfl (Or.inl rfl),
   failure_status_sequences.2 envEngineFail (dictUpdate [] [("x", 1)])
     "step 3 crashed" rfl rfl rfl rfl rfl rfl rfl⟩

/-- C1 counterexample: the claim quantifies over every exit path of
`run_yadage_workflow` and asserts a terminal publish is never missing, but
the publisher is constructed *before* the `try` block (cli.py line 106), so
a run whose publisher construction raises exits the supervisor with zero
terminal publish calls (and the exception escapes). -/
theorem ctor_failure_zero_terminal_publishes :
    terminalPublishes (run_yadage_workflow envCtorFailA).1 = [] ∧
    (run_yadage_workflow envCtorFailA).2 =
      .raised "publisher connection refused" :=
  ⟨rfl, rfl⟩

/-- C1 (amended): provided the publisher construction succeeds, every run
makes exactly one terminal status publish call on every exit path: `FAILED`
(state 3) carrying the triggering error's message if any step of the guarded
region (spec existence check, spec loading, init-data merge, connectivity
check, engine invocation) raises, else `FINISHED` (state 2) after the engine
returns normally; the run itself always returns normally. -/
theorem terminal_publish_exactly_once (env : RunEnv)
    (h0 : env.publisherCtor = .ok ()) :
    (run_yadage_workflow env).2 = .ok ∧
    ((∃ e, (tryBody env).2 = .error e ∧
        terminalPublishes (run_yadage_workflow env).1 =
          [(3, some ("workflow failed: " ++ e))]) ∨
      ((tryBody env).2 = .ok () ∧
        terminalPublishes (run_yadage_workflow env).1 = [(2, none)])) := by
  refine ⟨run_returns_normally env h0, ?_⟩
  cases hsf : env.specFileExists with
  | false =>
    have htb := tryBody_spec_missing env hsf
    exact Or.inl ⟨_, by rw [htb],
      by rw [terminalPublishes_run_failure env _ [] h0 htb]; rfl⟩
  | true =>
    cases hsl : env.specLoadResult with
    | error e =>
      have htb := tryBody_spec_load_error env e hsf hsl
      exact Or.inl ⟨e, by rw [htb],
        by rw [terminalPublishes_run_failure env e [.specLoaderInvoked] h0 htb]; rfl⟩
    | ok u =>
      cases u
      cases hli : loadInitFiles env.fileContents
          (env.operationalOptions.initfiles.getD []) [] with
      | error e =>
        have htb := tryBody_initfiles_error env e hsf hsl hli
        exact Or.inl ⟨e, by rw [htb],
          by rw [terminalPublishes_run_failure env e [.specLoaderInvoked] h0 htb]; rfl⟩
      | ok fd =>
        cases hc : env.connectivity with
        | error e =>
          have htb := tryBody_connectivity_error env e fd hsf hsl hli hc
          exact Or.inl ⟨e, by rw [htb],
            by rw [terminalPublishes_run_failure env e [.specLoaderInvoked] h0 htb]; rfl⟩
        | ok u =>
          cases u
          cases hse : env.steeringEnter with
          | error e =>
            have htb := tryBody_enter_error env e fd hsf hsl hli hc hse
            exact Or.inl ⟨e, by rw [htb],
              by rw [terminalPublishes_run_failure env e _ h0 htb]; rfl⟩
          | ok u =>
            cases u
            cases her : env.engineRun with
            | error e =>
              have htb := tryBody_engine_error env e fd hsf hsl hli hc hse her
              refine Or.inl ⟨e, by rw [htb], ?_⟩
              rw [terminalPublishes_run_failure env e _ h0 htb,
                terminalPublishes_append, terminalPublishes_publishStatus]
              simp [terminalPublishes]
            | ok u =>
              cases u
              have htb := tryBody_all_ok env fd hsf hsl hli hc hse her
              refine Or.inr ⟨by rw [htb], ?_⟩
              rw [run_of_tryBody_ok env _ h0 htb, terminalPublishes_append,
                terminalPublishes_append, terminalPublishes_publishStatus,
                terminalPublishes_publishStatus]
              simp [terminalPublishes]

/-- Witness for the amended C1 at a concrete all-success environment. -/
theorem terminal_publish_exactly_once_witness :
    (run_yadage_workflow envAllOk).2 = .ok ∧
    ((∃ e, (tryBody envAllOk).2 = .error e ∧
        terminalPublishes (run_yadage_workflow envAllOk).1 =
          [(3, some ("workflow failed: " ++ e))]) ∨
      ((tryBody envAllOk).2 = .ok () ∧
        terminalPublishes (run_yadage_workflow envAllOk).1 = [(2, none)])) :=
  terminal_publish_exactly_once envAllOk rfl

/-- C4: for every ordered list of init files and every parameter mapping, the
merged initial data gives each key the caller-supplied parameter value when
present, else the value of the last file (in list order) defining the key:
the overlay of the files in list order with the parameters overlaid last.
In particular, for init files `a.yaml -> {x:1, y:2}`, `b.yaml -> {y:3, z:4}`
and raw parameters `{z:5}` the merged data is `{x:1, y:3, z:5}`. -/
theorem init_data_merge_precedence :
    (∀ (α : Type) (fileData : List (List (String × α)))
        (params : List (String × α)) (k : String),
      dictGet? (mergeInitData fileData params) k =
        (dictGetLast? params k).or (filesGetLast? fileData k)) ∧
    mergeInitData [[("x", (1 : Int)), ("y", 2)], [("y", 3), ("z", 4)]]
        [("z", 5)] =
      [("x", 1), ("y", 3), ("z", 5)] := by
  constructor
  · intro α fds params k
    unfold mergeInitData
    rw [dictGet?_dictUpdate, dictGet?_foldl_dictUpdate]
    have hempty : dictGet? ([] : List (String × α)) k = none := rfl
    rw [hempty, Option.or_none]
  · decide

/-- C5: delivery failure of any status publish (RUNNING, FINISHED or FAILED)
never raises out of the supervisor — given a constructed publisher, the run
returns normally for every delivery behaviour, and the events emitted by the
supervisor are the same as with any other delivery behaviour: a failed
delivery surfaces only as the publisher's local log record (the
`publishFailedLog` events that `stripFailLogs` removes). The publisher body
is modelled from the spec, its source not being under `src/`. -/
theorem publish_failure_contained (env : RunEnv)
    (h0 : env.publisherCtor = .ok ()) (d : Nat → Bool) :
    (run_yadage_workflow (withDelivery env d)).2 = .ok ∧
    stripFailLogs (run_yadage_workflow (withDelivery env d)).1 =
      stripFailLogs (run_yadage_workflow env).1 := by
  refine ⟨run_returns_normally (withDelivery env d) h0, ?_⟩
  cases hsf : env.specFileExists with
  | false =>
    rw [stripFailLogs_run_failure (withDelivery env d) _ [] h0
        (tryBody_spec_missing (withDelivery env d) hsf),
      stripFailLogs_run_failure env _ [] h0 (tryBody_spec_missing env hsf)]
    rfl
  | true =>
    cases hsl : env.specLoadResult with
    | error e =>
      rw [stripFailLogs_run_failure (withDelivery env d) e _ h0
          (tryBody_spec_load_error (withDelivery env d) e hsf hsl),
        stripFailLogs_run_failure env e _ h0
          (tryBody_spec_load_error env e hsf hsl)]
      rfl
    | ok u =>
      cases u
      cases hli : loadInitFiles env.fileContents
          (env.operationalOptions.initfiles.getD []) [] with
      | error e =>
        rw [stripFailLogs_run_failure (withDelivery env d) e _ h0
            (tryBody_initfiles_error (withDelivery env d) e hsf hsl hli),
          stripFailLogs_run_failure env e _ h0
            (tryBody_initfiles_error env e hsf hsl hli)]
        rfl
      | ok fd =>
        cases hc : env.connectivity with
        | error e =>
          rw [stripFailLogs_run_failure (withDelivery env d) e _ h0
              (tryBody_connectivity_error (withDelivery env d) e fd hsf hsl hli hc),
            stripFailLogs_run_failure env e _ h0
              (tryBody_connectivity_error env e fd hsf hsl hli hc)]
          rfl
        | ok u =>
          cases u
          cases hse : env.steeringEnter with
          | error e =>
            rw [stripFailLogs_run_failure (withDelivery env d) e _ h0
                (tryBody_enter_error (withDelivery env d) e fd hsf hsl hli hc hse),
              stripFailLogs_run_failure env e _ h0
                (tryBody_enter_error env e fd hsf hsl hli hc hse)]
            rfl
          | ok u =>
            cases u
            cases her : env.engineRun with
            | error e =>
              rw [stripFailLogs_run_failure (withDelivery env d) e _ h0
                  (tryBody_engine_error (withDelivery env d) e fd hsf hsl hli hc hse her),
                stripFailLogs_run_failure env e _ h0
                  (tryBody_engine_error env e fd hsf hsl hli hc hse her)]
              simp only [stripFailLogs_append, stripFailLogs_publishStatus]
              rfl
            | ok u =>
              cases u
              rw [run_of_tryBody_ok (withDelivery env d) _ h0
                  (tryBody_all_ok (withDelivery env d) fd hsf hsl hli hc hse her),
                run_of_tryBody_ok env _ h0
                  (tryBody_all_ok env fd hsf hsl hli hc hse her)]
              simp only [stripFailLogs_append, stripFailLogs_publishStatus]
              rfl

/-- Witness for C5: a run whose every publish delivery fails still returns
normally and emits the same supervisor events as the all-delivered run. -/
theorem publish_failure_contained_witness :
    (run_yadage_workflow (withDelivery envAllOk (fun _ => false))).2 = .ok ∧
    stripFailLogs
        (run_yadage_workflow (withDelivery envAllOk (fun _ => false))).1 =
      stripFailLogs (run_yadage_workflow envAllOk).1 :=
  publish_failure_contained envAllOk rfl (fun _ => false)

/-- C6 counterexample: the claim's own example condition — publisher
construction failed before the run body started — does not lead to the
claimed fallback log: construction happens before the `try` block
(cli.py line 106), so the exception escapes the supervisor and the trace is
empty; in particular no "status could not be published" record is logged. -/
theorem ctor_failure_no_fallback_log :
    (run_yadage_workflow envCtorFailB).2 = .raised "publisher down" ∧
    (run_yadage_workflow envCtorFailB).1 = [] :=
  ⟨rfl, rfl⟩

/-- C6 (amended): if publisher construction fails before the run body
starts, the construction error propagates out of the supervisor: no status
is published, no event at all is emitted, and in particular the handler's
fallback record that the terminal status could not be reported (which the
source only emits when a constructed publisher is falsy, cli.py lines
174-178) never appears. -/
theorem ctor_failure_propagates (env : RunEnv) (e : String)
    (h : env.publisherCtor = .error e) :
    run_yadage_workflow env = ([], .raised e) ∧
    Event.logError (couldNotPublishMessage env.workflowUuid) ∉
      (run_yadage_workflow env).1 := by
  have hr := run_of_ctor_error env e h
  refine ⟨hr, ?_⟩
  rw [hr]
  simp

/-- Witness for the amended C6 at a concrete construction-failure run. -/
theorem ctor_failure_propagates_witness :
    run_yadage_workflow envCtorFailB = ([], .raised "publisher down") ∧
    Event.logError (couldNotPublishMessage envCtorFailB.workflowUuid) ∉
      (run_yadage_workflow envCtorFailB).1 :=
  ctor_failure_propagates envCtorFailB "publisher down" rfl

/-- C7: for every run (with a constructed publisher) whose workflow spec
file is absent, the run makes exactly one status publish call — `FAILED`
with a message that spells out the missing file's name — with zero `RUNNING`
events, and the spec loader is never invoked: the absence is caught by the
explicit existence check before `yadageschemas.load` (cli.py line 108). -/
theorem spec_missing_failed_event (env : RunEnv)
    (h0 : env.publisherCtor = .ok ()) (h1 : env.specFileExists = false) :
    publishes (run_yadage_workflow env).1 =
      [(env.workflowUuid, 3,
        some ("workflow failed: " ++ specMissingMessage env.workflowFile))] ∧
    Event.specLoaderInvoked ∉ (run_yadage_workflow env).1 ∧
    "workflow failed: " ++ specMissingMessage env.workflowFile =
      "workflow failed: Workflow file " ++ env.workflowFile ++
        " does not exist" := by
  have htb := tryBody_spec_missing env h1
  refine ⟨?_, ?_, ?_⟩
  · rw [publishes_run_failure env _ [] h0 htb]
    rfl
  · rw [run_of_tryBody_error env _ [] h0 htb]
    cases hd : env.deliveryOk 3 <;> simp [publishStatus, hd]
  · rw [specMissingMessage, ← String.append_assoc, ← String.append_assoc]
    have hlit : "workflow failed: " ++ "Workflow file " =
        "workflow failed: Workflow file " := rfl
    rw [hlit]

/-- Witness for C7 at a concrete spec-missing run. -/
theorem spec_missing_failed_event_witness :
    publishes (run_yadage_workflow envSpecMissing).1 =
      [(envSpecMissing.workflowUuid, 3,
        some ("workflow failed: " ++
          specMissingMessage envSpecMissing.workflowFile))] ∧
    Event.specLoaderInvoked ∉ (run_yadage_workflow envSpecMissing).1 ∧
    "workflow failed: " ++ specMissingMessage envSpecMissing.workflowFile =
      "workflow failed: Workflow file " ++ envSpecMissing.workflowFile ++
        " does not exist" :=
  spec_missing_failed_event envSpecMissing rfl rfl

/-- C10: for every run that reaches the engine invocation, the
`accept_metadir` argument handed to `steering_ctx` is `true` exactly when
the key `accept_metadir` is present in the operational options, regardless
of the value stored under it: a present key with value `false` still yields
`true`, an absent key yields `false` (cli.py line 149 tests membership). -/
theorem accept_metadir_from_key_presence (env : RunEnv)
    (fd : List (String × Int))
    (h0 : env.publisherCtor = .ok ()) (h1 : env.specFileExists = true)
    (h2 : env.specLoadResult = .ok ())
    (h3 : loadInitFiles env.fileContents
      (env.operationalOptions.initfiles.getD []) [] = .ok fd)
    (h4 : env.connectivity = .ok ()) :
    engineFlags (run_yadage_workflow env).1 =
      [env.operationalOptions.accept_metadir.isSome] ∧
    (∀ b, env.operationalOptions.accept_metadir = some b →
      engineFlags (run_yadage_workflow env).1 = [true]) ∧
    (env.operationalOptions.accept_metadir = none →
      engineFlags (run_yadage_workflow env).1 = [false]) := by
  have hmain : engineFlags (run_yadage_workflow env).1 =
      [env.operationalOptions.accept_metadir.isSome] := by
    cases hse : env.steeringEnter with
    | error e =>
      rw [engineFlags_run_failure env e _ h0
        (tryBody_enter_error env e fd h1 h2 h3 h4 hse)]
      rfl
    | ok u =>
      cases u
      cases her : env.engineRun with
      | error e =>
        rw [engineFlags_run_failure env e _ h0
            (tryBody_engine_error env e fd h1 h2 h3 h4 hse her),
          engineFlags_append, engineFlags_publishStatus]
        rfl
      | ok u =>
        cases u
        rw [run_of_tryBody_ok env _ h0
            (tryBody_all_ok env fd h1 h2 h3 h4 hse her),
          engineFlags_append, engineFlags_append, engineFlags_publishStatus,
          engineFlags_publishStatus]
        rfl
  refine ⟨hmain, ?_, ?_⟩
  · intro b hb
    rw [hmain, hb]
    rfl
  · intro hb
    rw [hmain, hb]
    rfl

/-- Witness for C10: a run whose options store `accept_metadir = false`
still invokes the engine with `accept_metadir = true`. -/
theorem accept_metadir_from_key_presence_witness :
    engineFlags (run_yadage_workflow envAcceptMetadirFalse).1 =
      [envAcceptMetadirFalse.operationalOptions.accept_metadir.isSome] ∧
    (∀ b, envAcceptMetadirFalse.operationalOptions.accept_metadir = some b →
      engineFlags (run_yadage_workflow envAcceptMetadirFalse).1 = [true]) ∧
    (envAcceptMetadirFalse.operationalOptions.accept_metadir = none →
      engineFlags (run_yadage_workflow envAcceptMetadirFalse).1 = [false]) :=
  accept_metadir_from_key_presence envAcceptMetadirFalse
    (dictUpdate [] [("x", 1)]) rfl rfl rfl rfl rfl

/-! ## Lemmas about paths and the options resolver -/

theorem strStartsWith_iff (s p : String) :
    strStartsWith s p = true ↔ p.data <+: s.data := by
  simp [strStartsWith, List.isPrefixOf_iff_prefix]

theorem strStartsWith_append (s x p : String)
    (h : strStartsWith s p = true) :
    strStartsWith (s ++ x) p = true := by
  rw [strStartsWith_iff] at h ⊢
  rw [String.data_append]
  exact h.trans (List.prefix_append s.data x.data)

theorem slash_not_github (s : String) (h : strStartsWith s "/" = true) :
    strStartsWith s "github:" = false := by
  rw [strStartsWith_iff] at h
  by_contra hc
  rw [Bool.not_eq_false, strStartsWith_iff] at hc
  rcases h with ⟨t1, h1⟩
  rcases hc with ⟨t2, h2⟩
  rw [← h1] at h2
  have hg : "github:".data = 'g' :: "ithub:".data := rfl
  have hs : "/".data = '/' :: "".data := rfl
  rw [hg, hs] at h2
  simp only [List.cons_append] at h2
  exact absurd (List.head_eq_of_cons_eq h2) (by decide)

theorem workspacePath_ne_empty (s n : String) : workspacePath s n ≠ "" := by
  intro h
  have hlen := congrArg String.length h
  rw [workspacePath, String.length_append, String.length_append] at hlen
  have h1 : String.length "/" = 1 := rfl
  have h2 : String.length "" = 0 := rfl
  rw [h1, h2] at hlen
  omega

theorem workspacePath_startsWithSlash (s n : String)
    (h : strStartsWith s "/" = true) :
    strStartsWith (workspacePath s n) "/" = true := by
  unfold workspacePath
  exact strStartsWith_append (s ++ "/") n "/" (strStartsWith_append s "/" "/" h)

theorem osPathJoin_abs (ws b : String) (hb : strStartsWith b "/" = true) :
    osPathJoin ws b = b := by
  unfold osPathJoin
  rw [if_pos hb]

theorem osPathJoin_rel (ws b : String) (hws : ws ≠ "")
    (hb : strStartsWith b "/" = false) :
    ∃ rest, osPathJoin ws b = ws ++ rest := by
  unfold osPathJoin
  have h1 : ¬ (strStartsWith b "/" = true) := by
    rw [hb]
    exact Bool.false_ne_true
  rw [if_neg h1, if_neg hws]
  by_cases he : strEndsWith ws "/" = true
  · rw [if_pos he]
    exact ⟨b, rfl⟩
  · rw [if_neg he]
    exact ⟨"/" ++ b, String.append_assoc ws "/" b⟩

theorem osPathJoin_startsWithSlash (ws b : String)
    (hws : strStartsWith ws "/" = true) :
    strStartsWith (osPathJoin ws b) "/" = true := by
  unfold osPathJoin
  by_cases hb : strStartsWith b "/" = true
  · rw [if_pos hb]
    exact hb
  · rw [if_neg hb]
    have hne : ws ≠ "" := by
      intro h
      subst h
      exact absurd hws (by decide)
    rw [if_neg hne]
    by_cases he : strEndsWith ws "/" = true
    · rw [if_pos he]
      exact strStartsWith_append ws b "/" hws
    · rw [if_neg he]
      exact strStartsWith_append (ws ++ "/") b "/"
        (strStartsWith_append ws "/" "/" hws)

/-- C8: for every operational-options mapping whose path values are
relative, resolution joins `toplevel` (unless it is a `github:` reference,
which passes through unchanged), `initdir` (defaulting to the workspace
root, up to a trailing separator) and every `initfiles` entry (order
preserved) under the workspace root, so every produced path extends the
workspace root. -/
theorem resolved_paths_under_workspace (shared name : String)
    (opts : OperationalOptions)
    (htop : strStartsWith (opts.toplevel.getD "") "/" = false)
    (hdir : strStartsWith (opts.initdir.getD "") "/" = false)
    (hfiles : ∀ f ∈ opts.initfiles.getD [], strStartsWith f "/" = false) :
    (strStartsWith (opts.toplevel.getD "") "github:" = true →
      (load_yadage_operational_options shared name opts).toplevel =
        some (opts.toplevel.getD "")) ∧
    (strStartsWith (opts.toplevel.getD "") "github:" = false →
      ∃ rest, (load_yadage_operational_options shared name opts).toplevel =
        some (workspacePath shared name ++ rest)) ∧
    (∃ rest, (load_yadage_operational_options shared name opts).initdir =
      some (workspacePath shared name ++ rest)) ∧
    (opts.initdir = none →
      (load_yadage_operational_options shared name opts).initdir =
          some (workspacePath shared name) ∨
        (load_yadage_operational_options shared name opts).initdir =
          some (workspacePath shared name ++ "/")) ∧
    (load_yadage_operational_options shared name opts).initfiles =
      some ((opts.initfiles.getD []).map
        (fun f => osPathJoin (workspacePath shared name) f)) ∧
    (∀ g ∈ ((load_yadage_operational_options shared name opts).initfiles.getD
        []),
      ∃ rest, g = workspacePath shared name ++ rest) := by
  have hwsne := workspacePath_ne_empty shared name
  refine ⟨?_, ?_, ?_, ?_, ?_, ?_⟩
  · intro hg
    simp only [load_yadage_operational_options]
    rw [if_pos hg]
  · intro hg
    have h1 : ¬ (strStartsWith (opts.toplevel.getD "") "github:" = true) := by
      rw [hg]
      exact Bool.false_ne_true
    obtain ⟨rest, hr⟩ :=
      osPathJoin_rel (workspacePath shared name) (opts.toplevel.getD "")
        hwsne htop
    refine ⟨rest, ?_⟩
    simp only [load_yadage_operational_options]
    rw [if_neg h1, hr]
  · obtain ⟨rest, hr⟩ :=
      osPathJoin_rel (workspacePath shared name) (opts.initdir.getD "")
        hwsne hdir
    refine ⟨rest, ?_⟩
    simp only [load_yadage_operational_options]
    rw [hr]
  · intro hnone
    simp only [load_yadage_operational_options, hnone]
    show some (osPathJoin (workspacePath shared name) "") = _ ∨
      some (osPathJoin (workspacePath shared name) "") = _
    unfold osPathJoin
    have h0 : strStartsWith "" "/" = false := by decide
    have h1 : ¬ (strStartsWith "" "/" = true) := by
      rw [h0]
      exact Bool.false_ne_true
    rw [if_neg h1, if_neg hwsne]
    by_cases he : strEndsWith (workspacePath shared name) "/" = true
    · rw [if_pos he, String.append_empty]
      exact Or.inl rfl
    · rw [if_neg he, String.append_empty]
      exact Or.inr rfl
  · simp only [load_yadage_operational_options]
  · intro g hg
    simp only [load_yadage_operational_options, Option.getD_some] at hg
    rcases List.mem_map.mp hg with ⟨f, hf, hjoin⟩
    obtain ⟨rest, hr⟩ :=
      osPathJoin_rel (workspacePath shared name) f hwsne (hfiles f hf)
    exact ⟨rest, by rw [← hjoin, hr]⟩

/-- Witness for C8 at a concrete options mapping with relative paths. -/
theorem resolved_paths_under_workspace_witness :
    (strStartsWith (optsRelative.toplevel.getD "") "github:" = true →
      (load_yadage_operational_options "/var/reana" "ws1"
          optsRelative).toplevel =
        some (optsRelative.toplevel.getD "")) ∧
    (strStartsWith (optsRelative.toplevel.getD "") "github:" = false →
      ∃ rest, (load_yadage_operational_options "/var/reana" "ws1"
          optsRelative).toplevel =
        some (workspacePath "/var/reana" "ws1" ++ rest)) ∧
    (∃ rest, (load_yadage_operational_options "/var/reana" "ws1"
        optsRelative).initdir =
      some (workspacePath "/var/reana" "ws1" ++ rest)) ∧
    (optsRelative.initdir = none →
      (load_yadage_operational_options "/var/reana" "ws1"
          optsRelative).initdir =
          some (workspacePath "/var/reana" "ws1") ∨
        (load_yadage_operational_options "/var/reana" "ws1"
            optsRelative).initdir =
          some (workspacePath "/var/reana" "ws1" ++ "/")) ∧
    (load_yadage_operational_options "/var/reana" "ws1"
        optsRelative).initfiles =
      some ((optsRelative.initfiles.getD []).map
        (fun f => osPathJoin (workspacePath "/var/reana" "ws1") f)) ∧
    (∀ g ∈ ((load_yadage_operational_options "/var/reana" "ws1"
        optsRelative).initfiles.getD []),
      ∃ rest, g = workspacePath "/var/reana" "ws1" ++ rest) :=
  resolved_paths_under_workspace "/var/reana" "ws1" optsRelative
    (by decide) (by decide) (by decide)


/-- C9: path resolution is idempotent — resolving a second time leaves the
(now absolute) `toplevel`, `initdir` and `initfiles` values unchanged, with
no double-prefixing: `os.path.join` discards its first argument for an
absolute second argument, and a once-resolved `toplevel` either starts with
`github:` (passed through again) or with `/`. Holds whenever the shared
volume path is absolute. -/
theorem resolve_idempotent (shared name : String)
    (opts : OperationalOptions) (h : strStartsWith shared "/" = true) :
    load_yadage_operational_options shared name
        (load_yadage_operational_options shared name opts) =
      load_yadage_operational_options shared name opts := by
  have hws : strStartsWith (workspacePath shared name) "/" = true :=
    workspacePath_startsWithSlash shared name h
  simp only [load_yadage_operational_options, Option.getD_some,
    OperationalOptions.mk.injEq, Option.some.injEq]
  refine ⟨?_, ?_, ?_, trivial⟩
  · by_cases hg :
        strStartsWith (opts.toplevel.getD "") "github:" = true
    · rw [if_pos hg, if_pos hg]
    · rw [if_neg hg]
      have habs :=
        osPathJoin_startsWithSlash (workspacePath shared name)
          (opts.toplevel.getD "") hws
      have hng : ¬ (strStartsWith
          (osPathJoin (workspacePath shared name) (opts.toplevel.getD ""))
            "github:" = true) := by
        rw [slash_not_github _ habs]
        exact Bool.false_ne_true
      rw [if_neg hng]
      exact osPathJoin_abs _ _ habs
  · exact osPathJoin_abs _ _
      (osPathJoin_startsWithSlash (workspacePath shared name)
        (opts.initdir.getD "") hws)
  · rw [List.map_map]
    refine List.map_congr_left ?_
    intro f _
    show osPathJoin (workspacePath shared name)
        (osPathJoin (workspacePath shared name) f) =
      osPathJoin (workspacePath shared name) f
    exact osPathJoin_abs _ _
      (osPathJoin_startsWithSlash (workspacePath shared name) f hws)

/-- Witness for C9 at a concrete options mapping. -/
theorem resolve_idempotent_witness :
    load_yadage_operational_options "/var/reana" "ws1"
        (load_yadage_operational_options "/var/reana" "ws1"
          optsRelativeFull) =
      load_yadage_operational_options "/var/reana" "ws1" optsRelativeFull :=
  resolve_idempotent "/var/reana" "ws1" optsRelativeFull (by decide)

end ReanaYadage
